import Mathlib

/-!
Verification of the KPX SMP telegram bot (files `smp_bot_interactive.py` and
`smp_information.py`) against its natural-language specification.

The repository contains two near-duplicate crawler/bot implementations:
an interactive bot (`smp_bot_interactive.py`) and a scheduled one
(`smp_information.py`).  The definitions below are shallow embeddings of the
Python functions named in the claims; each definition carries a comment
pointing at the source lines it translates.  Machine strings are modelled as
Lean `String` (a list of unicode scalar values, matching Python's `str`),
numeric cell values as `ℚ` (the cell values compared against the thresholds
90 and 120 are decimal literals, represented exactly by rationals), and
fallible operations return `Option`.
-/

/-! ## String toolkit

Small executable models of the Python string primitives used by the source:
`str.split('\n')`, `str.strip()`, `str.lower()`, substring containment
(`sub in s`), right-justification (`f-string {x:>n}`) and `'c' * n`.
All are defined over `String.data` so that they are structurally recursive
and kernel-computable.
-/

/-- Split a character list at every occurrence of `sep`; models Python
`str.split(sep)` for a one-character separator.  `splitChar sep [] = [[]]`,
matching `"".split(sep) == ['']`. -/
def splitChar (sep : Char) : List Char → List (List Char)
  | [] => [[]]
  | c :: cs =>
    if c = sep then [] :: splitChar sep cs
    else
      match splitChar sep cs with
      | [] => [[c]]
      | g :: gs => (c :: g) :: gs

/-- Python `message.split('\n')`. -/
def pySplitLines (s : String) : List String :=
  (splitChar '\n' s.data).map String.mk

/-- Number of lines of a string, i.e. `len(s.split('\n'))`. -/
def numLines (s : String) : Nat := (pySplitLines s).length

/-- Python `s.strip()`: remove leading and trailing whitespace. -/
def pyStrip (s : String) : String :=
  String.mk (((s.data.dropWhile Char.isWhitespace).reverse.dropWhile
    Char.isWhitespace).reverse)

/-- Python `s.lower()`: character-wise lower-casing (all characters appearing
in the source's comparisons are ASCII or Hangul, on which this matches
Python). -/
def pyLower (s : String) : String :=
  String.mk (s.data.map Char.toLower)

/-- Python substring containment `sub in s`. -/
def pyIn (sub s : String) : Bool :=
  (List.range (s.data.length + 1)).any
    (fun i => ((s.data.drop i).take sub.data.length) == sub.data)

/-- Python `'c' * n`. -/
def repChar (c : Char) (n : Nat) : String := String.mk (List.replicate n c)

/-- Python f-string right-justification `{s:>w}`: pad on the left with spaces
up to width `w` (strings of length `≥ w` are unchanged). -/
def rjust (w : Nat) (s : String) : String :=
  repChar ' ' (w - s.length) ++ s

/-- Python slice `xs[-n:]` for `n > 0`: the last `n` elements (all of them if
fewer than `n` exist). -/
def lastN (n : Nat) (xs : List String) : List String :=
  xs.drop (xs.length - n)

/-! ## Data model

`RawTable` as produced by `pd.read_html` in both crawlers: a header row naming
one label column (`구분`) and N date columns, and data rows each carrying a
label (`1h` … `24h`, `최대`, `최소`, `가중평균`) and one cell per date column.

A pandas cell is either missing (`NaN`, `pd.notna` false) or a value with a
display string (its f-string rendering) and an optional numeric reading: the
source probes the numeric reading with `float(value)` inside `try/except`, so
the embedding carries the result of that parse (`none` when `float()` raises).
-/

inductive Cell where
  | missing : Cell
  | entry (text : String) (parsed : Option ℚ) : Cell
  deriving DecidableEq

/-- Python f-string rendering of a raw cell: a missing cell (`float('nan')`)
prints as `"nan"`; the source's summary lines interpolate the raw cell value
without a `notna` check. -/
def Cell.pyStr : Cell → String
  | Cell.missing => "nan"
  | Cell.entry t _ => t

structure Row where
  label : String
  cells : List (String × Cell)
  deriving DecidableEq

/-- `row[date_col]`: cell of `r` in column `col`.  In the source every row of
the dataframe has every column; a column absent from our association list
stands for a `NaN` cell. -/
def Row.cell (r : Row) (col : String) : Cell :=
  (r.cells.lookup col).getD Cell.missing

structure Table where
  /-- `df.columns[1:]` — the header columns after the label column. -/
  dateColumns : List String
  rows : List Row
  deriving DecidableEq

/-- `df.empty` — a table extracted by `pd.read_html` always has at least one
column, so the dataframe is empty exactly when it has no rows. -/
def Table.isEmptyTable (t : Table) : Bool := t.rows.isEmpty

/-! ## Severity annotation and hourly lines

`smp_bot_interactive.py` lines 252-268 and `smp_information.py` lines 224-240
(identical logic): for each hourly row and selected date column, if the cell
is not `NaN`, try `float(value)`; on success prefix the line with an emoji
chosen by the thresholds 120 and 90; if `float()` raises, emit the same line
unannotated (two-space prefix); if the cell is `NaN`, emit nothing.
-/

inductive Severity where
  | high | medium | low
  deriving DecidableEq

/-- The threshold chain of the source:
`if val_float > 120: 🔴 elif val_float > 90: 🟡 else: 🟢`. -/
def severityOf (v : ℚ) : Severity :=
  if v > 120 then Severity.high
  else if v > 90 then Severity.medium
  else Severity.low

def sevEmoji : Severity → String
  | Severity.high => "🔴"
  | Severity.medium => "🟡"
  | Severity.low => "🟢"

/-- The severity marker attached to a cell: present exactly when the cell is
not `NaN` and `float(value)` succeeds. -/
def severityMarker : Cell → Option Severity
  | Cell.missing => none
  | Cell.entry _ none => none
  | Cell.entry _ (some v) => some (severityOf v)

/-- One hourly line of the report
(`smp_bot_interactive.py` lines 252-268, `smp_information.py` lines 224-240):
`none` when the cell is `NaN` (the source emits nothing), otherwise the
rendered line `f"{emoji} {time_slot:>3}: {value:>7} 원/kWh\n"`, or its
unannotated variant `f"  {time_slot:>3}: {value:>7} 원/kWh\n"` when
`float(value)` raises. -/
def hourLine (time_slot : String) (value : Cell) : Option String :=
  match value with
  | Cell.missing => none
  | Cell.entry text parsed =>
    match parsed with
    | some val_float =>
      let emoji := if val_float > 120 then "🔴"
                   else if val_float > 90 then "🟡" else "🟢"
      some (emoji ++ " " ++ rjust 3 time_slot ++ ": " ++ rjust 7 text ++ " 원/kWh\n")
    | none =>
      some ("  " ++ rjust 3 time_slot ++ ": " ++ rjust 7 text ++ " 원/kWh\n")

/-! ## Hourly-row classification

Both formatters select hourly rows with
`df[df.iloc[:, 0].astype(str).str.contains('h$', regex=True, na=False)]`
(`smp_bot_interactive.py` line 200, `smp_information.py` line 210).
`str.contains` with a regex performs `re.search`; the pattern matches when
the string ends in `h`, or ends in `h` followed by one trailing newline
(the regex end anchor also matches before a final newline).  Row labels are
modelled as strings (`astype(str)` has been applied; `na=False` maps a
missing label to no-match and needs no separate representation).
-/

def matches_h_end (s : String) : Bool :=
  s.data.reverse.head? == some 'h'
    || (s.data.reverse.head? == some '\n' && s.data.reverse.tail.head? == some 'h')

/-- The claim's pattern: an integer followed by `h`, i.e. a full match of one
or more digits and a final `h`. -/
def intThenH (s : String) : Bool :=
  s.data.reverse.head? == some 'h'
    && !s.data.reverse.tail.isEmpty && s.data.reverse.tail.all Char.isDigit

/-- `hourly_data`: the rows whose label passes the `h$` search. -/
def hourlyRows (t : Table) : List Row :=
  t.rows.filter (fun r => matches_h_end r.label)

/-! ## Date-column selection

`smp_bot_interactive.py` `format_smp_data` lines 209-220:

    date_columns = list(df.columns[1:])
    if date_filter:
        # 특정 날짜가 입력되면 일주일 전체를 보여줌
        date_columns = date_columns
    else:
        date_columns = date_columns[-3:] if len(date_columns) > 3 else date_columns

Python truthiness of the filter argument: `None` and `""` are falsy, every
other string is truthy.
-/

def pyTruthyOpt : Option String → Bool
  | none => false
  | some s => !s.data.isEmpty

def format_selectColumns (date_columns : List String) (date_filter : Option String) :
    List String :=
  if pyTruthyOpt date_filter then date_columns
  else if date_columns.length > 3 then date_columns.drop (date_columns.length - 3)
  else date_columns

/-! ## Date parsing (`InteractiveSMPBot._parse_date`, lines 519-555)

`^(\d{4}-\d{2}-\d{2})$` on the stripped filter returns it unchanged;
`^(\d{2})\.(\d{2})$` is expanded with the current year to
`f"{year}-{month}-{day}"`; anything else yields `None`.
-/

def isYMD (cs : List Char) : Bool :=
  cs.length == 10 && (cs.take 4).all Char.isDigit && cs[4]? == some '-'
    && ((cs.drop 5).take 2).all Char.isDigit && cs[7]? == some '-'
    && (cs.drop 8).all Char.isDigit

def isMDshort (cs : List Char) : Bool :=
  cs.length == 5 && (cs.take 2).all Char.isDigit && cs[2]? == some '.'
    && (cs.drop 3).all Char.isDigit

def parse_date (currentYear : Nat) (date_filter : String) : Option String :=
  if isYMD (pyStrip date_filter).data then some (pyStrip date_filter)
  else if isMDshort (pyStrip date_filter).data then
    some (toString currentYear ++ "-" ++ String.mk ((pyStrip date_filter).data.take 2)
      ++ "-" ++ String.mk ((pyStrip date_filter).data.drop 3))
  else none

/-! ## `SMPCrawler._filter_dates` (`smp_bot_interactive.py` lines 283-336)

The helper is defined on `SMPCrawler` but never called anywhere in the
repository.  Its body:

    try:
        date_filter_lower = date_filter.strip().lower()
        if date_filter_lower in ['오늘', 'today']: ...today match...
        elif date_filter_lower in ['이번주', 'week', '주간']: return date_columns
        parsed_date = self._parse_date(date_filter)
        ...
    except Exception as e:
        return date_columns[-3:]

`_parse_date` is a method of `InteractiveSMPBot`, not of `SMPCrawler`, so on
any filter that reaches the third branch the attribute lookup
`self._parse_date` raises `AttributeError`, the enclosing handler catches it
and returns `date_columns[-3:]`.  The embedding reproduces that dynamic
behaviour: every non-keyword filter lands in the last-3 fallback, and the
date-matching code after the `_parse_date` call is unreachable.
`todayMD` stands for `datetime.now().strftime('%m.%d')`.
-/

def filter_dates (date_columns : List String) (date_filter : String)
    (todayMD : String) : List String :=
  if pyLower (pyStrip date_filter) == "오늘"
      || pyLower (pyStrip date_filter) == "today" then
    (if (date_columns.filter (fun col => pyIn todayMD col)).isEmpty
     then lastN 1 date_columns
     else date_columns.filter (fun col => pyIn todayMD col))
  else if pyLower (pyStrip date_filter) == "이번주"
      || pyLower (pyStrip date_filter) == "week"
      || pyLower (pyStrip date_filter) == "주간" then date_columns
  else lastN 3 date_columns

/-! ## The interactive formatter (`SMPCrawler.format_smp_data`,
`smp_bot_interactive.py` lines 172-281)

`today` stands for `datetime.now().strftime('%Y년 %m월 %d일')` and `nowT` for
`datetime.now().strftime('%H:%M:%S')`.  The statistics block inside the
per-column loop cannot raise in this model, so its `try/except` needs no
separate branch; `date_col in max_row.columns` is always true because every
selected column is a dataframe column.
-/

/-- One statistics line, e.g. `🔴 최대: {val} 원/kWh`: emitted when a row with
the given label exists (`df[df.iloc[:, 0] == '최대']` nonempty; `.values[0]`
takes the first match), interpolating the raw cell value. -/
def statLine (t : Table) (rowLabel lead : String) (col : String) : String :=
  match t.rows.find? (fun r => r.label == rowLabel) with
  | some r => lead ++ (Row.cell r col).pyStr ++ " 원/kWh\n"
  | none => ""

/-- The per-date-column section of the interactive report
(lines 225-270). -/
def dateSection (t : Table) (col : String) : String :=
  "<b>📅 " ++ col ++ "</b>\n" ++ repChar '-' 30 ++ "\n"
  ++ statLine t "최대" "🔴 최대: " col
  ++ statLine t "최소" "🟢 최소: " col
  ++ statLine t "가중평균" "📊 평균: " col
  ++ "\n"
  ++ String.join ((hourlyRows t).map (fun r => (hourLine r.label (Row.cell r col)).getD ""))
  ++ "\n"

def interactive_format (today nowT : String) (jeju : Bool) (df : Option Table)
    (date_filter : Option String) : String :=
  match df with
  | none => "⚠️ 데이터를 가져올 수 없습니다."
  | some t =>
    if t.isEmptyTable then "⚠️ 데이터를 가져올 수 없습니다."
    else
      let regionIcon := if jeju then "🏝" else "🌍"
      let regionName := if jeju then "제주" else "육지"
      let header := regionIcon ++ " <b>KPX SMP 데이터 - " ++ regionName ++ "</b>\n"
        ++ "🗓 조회일시: " ++ today ++ "\n" ++ repChar '=' 40 ++ "\n\n"
      if (hourlyRows t).isEmpty then header ++ "⚠️ 시간대별 데이터를 찾을 수 없습니다."
      else
        let cols := format_selectColumns t.dateColumns date_filter
        header ++ String.join (cols.map (dateSection t))
        ++ repChar '=' 40 ++ "\n" ++ "📌 출처: KPX 한국전력거래소\n" ++ "🕐 " ++ nowT

/-! ## The scheduled formatter (`SMPCrawler.format_smp_data`,
`smp_information.py` lines 144-255)

Here the report header (title, date line, 50-character rule) is built
*before* the empty-table check, so the no-data report consists of the header
block followed by the warning line.  The weekly summary block is emitted only
when a row labelled `최대` exists; each sub-block lists every date column of
the first row found with the corresponding label.  All date columns are shown
(`recent_dates = date_columns`).
-/

def info_statBlock (t : Table) (rowLabel title : String) : String :=
  "\n<b>" ++ title ++ ":</b>\n"
  ++ (match t.rows.find? (fun r => r.label == rowLabel) with
      | some r => String.join (t.dateColumns.map
          (fun col => "  • " ++ col ++ ": " ++ (Row.cell r col).pyStr ++ " 원/kWh\n"))
      | none => "")

def info_summary (t : Table) : String :=
  if t.rows.any (fun r => r.label == "최대") then
    info_statBlock t "최대" "최대값" ++ info_statBlock t "최소" "최소값"
      ++ info_statBlock t "가중평균" "가중평균"
  else ""

def info_dateSection (t : Table) (col : String) : String :=
  "\n<b>📅 " ++ col ++ "</b>\n" ++ repChar '-' 30 ++ "\n"
  ++ String.join ((hourlyRows t).map (fun r => (hourLine r.label (Row.cell r col)).getD ""))

def info_format (today nowT : String) (df : Option Table) : String :=
  let header := "📊 <b>KPX 시간대별 SMP 데이터</b>\n" ++ "🗓 " ++ today ++ "\n"
    ++ repChar '=' 50 ++ "\n\n"
  match df with
  | none => header ++ "⚠️ 데이터를 가져올 수 없습니다."
  | some t =>
    if t.isEmptyTable then header ++ "⚠️ 데이터를 가져올 수 없습니다."
    else
      header ++ "📈 <b>주간 요약</b>\n" ++ info_summary t
      ++ "\n" ++ repChar '=' 50 ++ "\n\n" ++ "⏰ <b>시간대별 상세 데이터</b>\n\n"
      ++ (if (hourlyRows t).isEmpty then "⚠️ 시간대별 데이터를 찾을 수 없습니다.\n"
          else String.join (t.dateColumns.map (info_dateSection t)))
      ++ "\n" ++ repChar '=' 50 ++ "\n" ++ "📌 데이터 출처: KPX 한국전력거래소\n"
      ++ "🕐 업데이트: " ++ nowT

/-! ## Fetch and extraction

The transport layer is embedded as data: `HttpResult` is the outcome of the
(blocking) `requests` call — a response with a final status code and the
table elements of the response document in document order, or a raised
timeout / connection error.  `response.raise_for_status()` raises `HTTPError`
exactly for status codes 400-599 (`requests`' documented behaviour); every
exception raised inside `fetch_smp_data` is caught by its `except` clauses,
which return `None` — so in the embedding each raising path maps to `none`
and nothing escapes.

`soup.find('table', {'class': 'conTable'})` returns the first table element
whose class attribute contains `conTable`; `soup.find('table')` the first
table element of the document.  `pd.read_html` on the found element yields
its tabular content, carried in the `HtmlTable` structure.
-/

structure HtmlTable where
  classes : List String
  content : Table
  deriving DecidableEq

inductive HttpResult where
  | response (status : Nat) (tables : List HtmlTable)
  | timeout
  | connError
  deriving DecidableEq

def hasConTableClass (t : HtmlTable) : Bool := t.classes.contains "conTable"

/-- Table extraction of `smp_information.py` lines 119-128: first
class-marked table, falling back to the first table of the document. -/
def info_extract (tables : List HtmlTable) : Option HtmlTable :=
  match tables.find? hasConTableClass with
  | some t => some t
  | none => tables.head?

/-- Table extraction of `smp_bot_interactive.py` lines 151-155: first
class-marked table, no fallback. -/
def interactive_extract (tables : List HtmlTable) : Option HtmlTable :=
  tables.find? hasConTableClass

/-- `SMPCrawler.fetch_smp_data` of `smp_information.py` (lines 58-142), from
the point the HTTP response is available: raised transport errors and
`raise_for_status` are caught and become `None`, otherwise extraction runs. -/
def info_fetch (r : HttpResult) : Option Table :=
  match r with
  | HttpResult.timeout => none
  | HttpResult.connError => none
  | HttpResult.response status tables =>
    if 400 ≤ status ∧ status < 600 then none
    else
      match info_extract tables with
      | some t => some t.content
      | none => none

/-- `SMPCrawler.fetch_smp_data` of `smp_bot_interactive.py` (lines 73-170):
identical transport handling, but no extraction fallback. -/
def interactive_fetch (r : HttpResult) : Option Table :=
  match r with
  | HttpResult.timeout => none
  | HttpResult.connError => none
  | HttpResult.response status tables =>
    if 400 ≤ status ∧ status < 600 then none
    else
      match interactive_extract tables with
      | some t => some t.content
      | none => none

/-! ## The message chunker (`InteractiveSMPBot._split_message`,
`smp_bot_interactive.py` lines 622-647)

    lines = message.split('\n')
    parts = []
    current_part = ""
    for line in lines:
        if len(current_part) + len(line) + 1 > max_length:
            parts.append(current_part)
            current_part = line + '\n'
        else:
            current_part += line + '\n'
    if current_part:
        parts.append(current_part)
    return parts

`TelegramBot.send_message` of `smp_information.py` (lines 292-318) inlines
the same accumulation loop, sending each part as it is closed.
-/

def chunkStep (max_length : Nat) (acc : List String × String) (line : String) :
    List String × String :=
  if acc.2.length + line.length + 1 > max_length then
    (acc.1 ++ [acc.2], line ++ "\n")
  else
    (acc.1, acc.2 ++ (line ++ "\n"))

def split_message (message : String) (max_length : Nat) : List String :=
  let lines := pySplitLines message
  let r := lines.foldl (chunkStep max_length) ([], "")
  if r.2 = "" then r.1 else r.1 ++ [r.2]

/-- Concatenation of the returned parts, in order. -/
def joinParts : List String → String
  | [] => ""
  | p :: ps => p ++ joinParts ps

/-- `lineBlocks ls` is the text contributed by the consecutive lines `ls`:
each line followed by the newline the chunker appends. -/
def lineBlocks : List String → String
  | [] => ""
  | l :: ls => l ++ "\n" ++ lineBlocks ls

/-! ## Demonstration tables used by concrete instances -/

def demoTable : Table :=
  ⟨["09.24"], [⟨"1h", [("09.24", Cell.entry "100.5" none)]⟩]⟩

def conTbl : HtmlTable := ⟨["conTable", "tdCenter"], demoTable⟩

def plainTbl : HtmlTable := ⟨["other"], demoTable⟩

def rowAbh : Row := ⟨"abh", []⟩

def tbl9 : Table := ⟨["09.24"], [⟨"1h", []⟩, rowAbh, ⟨"최대", []⟩]⟩

/-! ## Theorems -/


/-! ## String toolkit lemmas -/

/-- `(a ++ b).data = a.data ++ b.data` for Lean strings. -/
theorem sdata_append (a b : String) : (a ++ b).data = a.data ++ b.data :=
  String.data_append a b

/-- Two strings with the same character data are equal. -/
theorem sext {a b : String} (h : a.data = b.data) : a = b :=
  String.ext h

/-- `String.length` is the length of the character data. -/
theorem slen (s : String) : s.length = s.data.length := rfl

/-- Appending the empty string is the identity. -/
theorem sappend_empty (s : String) : s ++ "" = s := by
  apply sext; rw [sdata_append]; simp

/-- String append is associative. -/
theorem sappend_assoc (a b c : String) : a ++ b ++ c = a ++ (b ++ c) := by
  apply sext; simp [sdata_append]

/-- Appending strings adds their lengths. -/
theorem slen_append (a b : String) : (a ++ b).length = a.length + b.length := by
  rw [slen, sdata_append, List.length_append]; rfl

theorem splitChar_ne_nil (sep : Char) (cs : List Char) : splitChar sep cs ≠ [] := by
  induction cs with
  | nil => simp [splitChar]
  | cons c cs ih =>
    by_cases h : c = sep
    · simp [splitChar, h]
    · cases hs : splitChar sep cs with
      | nil => exact absurd hs ih
      | cons g gs => simp [splitChar, h, hs]

theorem splitChar_cons_sep (sep : Char) (cs : List Char) :
    splitChar sep (sep :: cs) = [] :: splitChar sep cs := by
  simp [splitChar]

theorem splitChar_cons_ne (sep c : Char) (cs : List Char) (g : List Char)
    (gs : List (List Char)) (h : ¬c = sep) (hs : splitChar sep cs = g :: gs) :
    splitChar sep (c :: cs) = (c :: g) :: gs := by
  simp [splitChar, h, hs]

/-- Gluing every fragment of `splitChar` back together with a trailing `sep`
recovers the original list followed by one `sep`. -/
theorem splitChar_glue (sep : Char) (cs : List Char) :
    (List.map (fun g => g ++ [sep]) (splitChar sep cs)).flatten = cs ++ [sep] := by
  induction cs with
  | nil => simp [splitChar]
  | cons c cs ih =>
    by_cases h : c = sep
    · subst h; simp [splitChar_cons_sep, ih]
    · cases hs : splitChar sep cs with
      | nil => exact absurd hs (splitChar_ne_nil sep cs)
      | cons g gs =>
        rw [hs] at ih
        rw [splitChar_cons_ne sep c cs g gs h hs]
        simp only [List.map_cons, List.flatten_cons] at ih ⊢
        simp only [List.cons_append, List.append_assoc] at ih ⊢
        rw [ih]

/-- The number of fragments is the number of separators plus one. -/
theorem splitChar_length (sep : Char) (cs : List Char) :
    (splitChar sep cs).length = cs.count sep + 1 := by
  induction cs with
  | nil => simp [splitChar]
  | cons c cs ih =>
    by_cases h : c = sep
    · subst h
      rw [splitChar_cons_sep]
      simp [ih, List.count_cons]
    · cases hs : splitChar sep cs with
      | nil => exact absurd hs (splitChar_ne_nil sep cs)
      | cons g gs =>
        rw [hs] at ih
        rw [splitChar_cons_ne sep c cs g gs h hs]
        simp only [List.length_cons] at ih ⊢
        rw [ih, List.count_cons]
        simp [h]

theorem numLines_eq_count (s : String) : numLines s = s.data.count '\n' + 1 := by
  simp [numLines, pySplitLines, splitChar_length]

/-! ## Chunker lemmas -/

theorem lineBlocks_single (l : String) : lineBlocks [l] = l ++ "\n" := by
  show l ++ "\n" ++ lineBlocks [] = l ++ "\n"
  show l ++ "\n" ++ "" = l ++ "\n"
  exact sappend_empty _

theorem lineBlocks_snoc (cg : List String) (l : String) :
    lineBlocks (cg ++ [l]) = lineBlocks cg ++ (l ++ "\n") := by
  induction cg with
  | nil =>
    show lineBlocks [l] = "" ++ (l ++ "\n")
    rw [lineBlocks_single]
    apply sext
    simp [sdata_append]
  | cons a cg ih =>
    show a ++ "\n" ++ lineBlocks (cg ++ [l]) = a ++ "\n" ++ lineBlocks cg ++ (l ++ "\n")
    rw [ih, ← sappend_assoc]

theorem lineBlocks_data (ls : List String) :
    (lineBlocks ls).data = (ls.map (fun l => l.data ++ ['\n'])).flatten := by
  induction ls with
  | nil => rfl
  | cons l ls ih =>
    show (l ++ "\n" ++ lineBlocks ls).data = _
    simp [sdata_append, ih]

theorem lineBlocks_eq_empty {ls : List String} (h : lineBlocks ls = "") : ls = [] := by
  cases ls with
  | nil => rfl
  | cons l ls =>
    exfalso
    have hd := congrArg String.data h
    rw [lineBlocks_data] at hd
    simp at hd

theorem lineBlocks_append (g h : List String) :
    lineBlocks (g ++ h) = lineBlocks g ++ lineBlocks h := by
  induction g with
  | nil =>
    show lineBlocks h = "" ++ lineBlocks h
    rfl
  | cons a g ihg =>
    show a ++ "\n" ++ lineBlocks (g ++ h) = a ++ "\n" ++ lineBlocks g ++ lineBlocks h
    rw [ihg, ← sappend_assoc]

theorem joinParts_map_lineBlocks (gs : List (List String)) :
    joinParts (gs.map lineBlocks) = lineBlocks gs.flatten := by
  induction gs with
  | nil => rfl
  | cons g gs ih =>
    show lineBlocks g ++ joinParts (gs.map lineBlocks) = lineBlocks (g ++ gs.flatten)
    rw [ih, lineBlocks_append]

/-- Gluing the split lines back with their newlines yields the message plus
one trailing newline. -/
theorem lineBlocks_pySplitLines (m : String) :
    lineBlocks (pySplitLines m) = m ++ "\n" := by
  apply sext
  rw [lineBlocks_data, sdata_append, pySplitLines, List.map_map]
  have : ((fun l => String.data l ++ ['\n']) ∘ String.mk)
      = (fun g : List Char => g ++ ['\n']) := rfl
  rw [this, splitChar_glue]

/-- The accumulation loop turns a list of parts (each a block of consecutive
lines) and a current block into the same shape, consuming the remaining
lines. -/
theorem chunkFold_partition (L : Nat) (lines : List String) :
    ∀ (gs : List (List String)) (cg : List String),
      ∃ (gs' : List (List String)) (cg' : List String),
        lines.foldl (chunkStep L) (gs.map lineBlocks, lineBlocks cg)
          = (gs'.map lineBlocks, lineBlocks cg') ∧
        gs'.flatten ++ cg' = gs.flatten ++ cg ++ lines := by
  induction lines with
  | nil => exact fun gs cg => ⟨gs, cg, rfl, by simp⟩
  | cons line rest ih =>
    intro gs cg
    rw [List.foldl_cons]
    by_cases hc : (lineBlocks cg).length + line.length + 1 > L
    · have hstep : chunkStep L (gs.map lineBlocks, lineBlocks cg) line
          = ((gs ++ [cg]).map lineBlocks, lineBlocks [line]) := by
        simp only [chunkStep, hc, if_pos, lineBlocks_single, List.map_append,
          List.map_cons, List.map_nil]
      rw [hstep]
      obtain ⟨gs', cg', heq, hjoin⟩ := ih (gs ++ [cg]) [line]
      exact ⟨gs', cg', heq, by simpa [List.append_assoc] using hjoin⟩
    · have hstep : chunkStep L (gs.map lineBlocks, lineBlocks cg) line
          = (gs.map lineBlocks, lineBlocks (cg ++ [line])) := by
        simp only [chunkStep, hc, if_neg, not_false_iff, lineBlocks_snoc]
      rw [hstep]
      obtain ⟨gs', cg', heq, hjoin⟩ := ih gs (cg ++ [line])
      exact ⟨gs', cg', heq, by simpa [List.append_assoc] using hjoin⟩

/-- Every return value of `split_message` is a grouping of the message's
lines into consecutive blocks: no line is split, dropped, duplicated or
reordered. -/
theorem split_message_eq (m : String) (L : Nat) :
    split_message m L =
      (if ((pySplitLines m).foldl (chunkStep L) ([], "")).2 = ""
       then ((pySplitLines m).foldl (chunkStep L) ([], "")).1
       else ((pySplitLines m).foldl (chunkStep L) ([], "")).1
         ++ [((pySplitLines m).foldl (chunkStep L) ([], "")).2]) := rfl

theorem split_message_partition (m : String) (L : Nat) :
    ∃ groups : List (List String),
      groups.flatten = pySplitLines m ∧
      split_message m L = groups.map lineBlocks := by
  obtain ⟨gs', cg', heq, hjoin⟩ := chunkFold_partition L (pySplitLines m) [] []
  have heq' : (pySplitLines m).foldl (chunkStep L) ([], "")
      = (gs'.map lineBlocks, lineBlocks cg') := heq
  rw [split_message_eq, heq']
  by_cases hz : lineBlocks cg' = ""
  · have : cg' = [] := lineBlocks_eq_empty hz
    subst this
    refine ⟨gs', ?_, by simp [hz]⟩
    simpa using hjoin
  · refine ⟨gs' ++ [cg'], ?_, by simp [hz]⟩
    simpa using hjoin

/-- Reassembling the chunks gives the original message followed by a single
trailing newline. -/
theorem split_message_join (m : String) (L : Nat) :
    joinParts (split_message m L) = m ++ "\n" := by
  obtain ⟨groups, hflat, heq⟩ := split_message_partition m L
  rw [heq, joinParts_map_lineBlocks, hflat, lineBlocks_pySplitLines]

/-- No fragment produced by `splitChar` contains the separator. -/
theorem splitChar_sep_not_mem (sep : Char) (cs : List Char) :
    ∀ g ∈ splitChar sep cs, sep ∉ g := by
  induction cs with
  | nil =>
    intro g hg
    simp only [splitChar, List.mem_singleton] at hg
    subst hg
    simp
  | cons c cs ih =>
    by_cases h : c = sep
    · subst h
      rw [splitChar_cons_sep]
      intro g hg
      rcases List.mem_cons.mp hg with hg | hg
      · subst hg; simp
      · exact ih g hg
    · cases hs : splitChar sep cs with
      | nil => exact absurd hs (splitChar_ne_nil sep cs)
      | cons g0 gs =>
        rw [splitChar_cons_ne sep c cs g0 gs h hs]
        intro g hg
        rcases List.mem_cons.mp hg with hg | hg
        · subst hg
          intro hmem
          rcases List.mem_cons.mp hmem with hc | hc
          · exact h hc.symm
          · exact ih g0 (by rw [hs]; exact List.mem_cons_self g0 gs) hc
        · exact ih g (by rw [hs]; exact List.mem_cons_of_mem g0 hg)

/-- Each line returned by the Python `split('\n')` is newline-free. -/
theorem pySplitLines_no_newline (m : String) :
    ∀ l ∈ pySplitLines m, '\n' ∉ l.data := by
  intro l hl
  rcases List.mem_map.mp hl with ⟨g, hg, rfl⟩
  exact splitChar_sep_not_mem '\n' m.data g hg

theorem chunkFold_bound (L : Nat) (S : List String) :
    ∀ lines : List String, (∀ x ∈ lines, x ∈ S) →
    ∀ (ps : List String) (cur : String),
      (∀ p ∈ ps, p.length ≤ L ∨ ∃ l ∈ S, p = l ++ "\n" ∧ L < l.length + 1) →
      (cur.length ≤ L ∨ ∃ l ∈ S, cur = l ++ "\n" ∧ L < l.length + 1) →
      (∀ p ∈ (lines.foldl (chunkStep L) (ps, cur)).1,
          p.length ≤ L ∨ ∃ l ∈ S, p = l ++ "\n" ∧ L < l.length + 1) ∧
      ((lines.foldl (chunkStep L) (ps, cur)).2.length ≤ L ∨
        ∃ l ∈ S, (lines.foldl (chunkStep L) (ps, cur)).2 = l ++ "\n"
          ∧ L < l.length + 1) := by
  intro lines
  induction lines with
  | nil => exact fun _ ps cur hps hcur => ⟨hps, hcur⟩
  | cons line rest ih =>
    intro hsub ps cur hps hcur
    have hline : line ∈ S := hsub line (List.mem_cons_self line rest)
    have hsub2 : ∀ x ∈ rest, x ∈ S := fun x hx => hsub x (List.mem_cons_of_mem line hx)
    rw [List.foldl_cons]
    by_cases hc : cur.length + line.length + 1 > L
    · have hstep : chunkStep L (ps, cur) line = (ps ++ [cur], line ++ "\n") := by
        simp only [chunkStep, hc, if_pos]
      rw [hstep]
      apply ih hsub2
      · intro p hp
        rcases List.mem_append.mp hp with h | h
        · exact hps p h
        · simp at h; subst h; exact hcur
      · by_cases hl : L < line.length + 1
        · exact Or.inr ⟨line, hline, rfl, hl⟩
        · left
          rw [slen_append]
          have h1 : ("\n" : String).length = 1 := rfl
          omega
    · have hstep : chunkStep L (ps, cur) line = (ps, cur ++ (line ++ "\n")) := by
        simp only [chunkStep, hc, if_neg, not_false_iff]
      rw [hstep]
      apply ih hsub2 ps _ hps
      left
      rw [slen_append, slen_append]
      have h1 : ("\n" : String).length = 1 := rfl
      omega

/-- Every chunk fits the limit except a chunk holding a single one of the
message's lines whose length plus the appended newline exceeds the limit. -/
theorem split_message_bound (m : String) (L : Nat) :
    ∀ p ∈ split_message m L,
      p.length ≤ L ∨ ∃ l ∈ pySplitLines m, p = l ++ "\n" ∧ L < l.length + 1 := by
  have h := chunkFold_bound L (pySplitLines m) (pySplitLines m) (fun x hx => hx)
    [] "" (by intro p hp; simp at hp) (Or.inl (by simp [slen]))
  intro p hp
  rw [split_message_eq] at hp
  by_cases hz : ((pySplitLines m).foldl (chunkStep L) ([], "")).2 = ""
  · rw [if_pos hz] at hp
    exact h.1 p hp
  · rw [if_neg hz] at hp
    rcases List.mem_append.mp hp with hmem | hmem
    · exact h.1 p hmem
    · simp at hmem; subst hmem; exact h.2

/-- The accumulation loop only ever appends to the list of closed parts. -/
theorem chunkFold_parts_mono (L : Nat) (lines : List String) :
    ∀ (ps : List String) (cur : String),
      ∃ extra, (lines.foldl (chunkStep L) (ps, cur)).1 = ps ++ extra := by
  induction lines with
  | nil => exact fun ps cur => ⟨[], by simp⟩
  | cons line rest ih =>
    intro ps cur
    rw [List.foldl_cons]
    by_cases hc : cur.length + line.length + 1 > L
    · have hstep : chunkStep L (ps, cur) line = (ps ++ [cur], line ++ "\n") := by
        simp only [chunkStep, hc, if_pos]
      rw [hstep]
      obtain ⟨extra, he⟩ := ih (ps ++ [cur]) (line ++ "\n")
      exact ⟨[cur] ++ extra, by simp [he]⟩
    · have hstep : chunkStep L (ps, cur) line = (ps, cur ++ (line ++ "\n")) := by
        simp only [chunkStep, hc, if_neg, not_false_iff]
      rw [hstep]
      exact ih ps _

/-! ## Date-filter lemmas -/

theorem pyLower_data (s : String) : (pyLower s).data = s.data.map Char.toLower := rfl

theorem pyStrip_nil {f : String} (hd : f.data = []) : (pyStrip f).data = [] := by
  show ((f.data.dropWhile Char.isWhitespace).reverse.dropWhile Char.isWhitespace).reverse
    = []
  rw [hd]
  rfl

theorem isYMD_length {cs : List Char} (h : isYMD cs = true) : cs.length = 10 := by
  unfold isYMD at h
  simp only [Bool.and_eq_true, beq_iff_eq] at h
  exact h.1.1.1.1.1

theorem isMDshort_shape {cs : List Char} (h : isMDshort cs = true) :
    cs.length = 5 ∧ cs[2]? = some '.' := by
  unfold isMDshort at h
  simp only [Bool.and_eq_true, beq_iff_eq] at h
  exact ⟨h.1.1.1, h.1.2⟩

/-- A filter accepted by `_parse_date` matched one of the two regexes. -/
theorem parse_shape {year : Nat} {f d : String} (h : parse_date year f = some d) :
    isYMD (pyStrip f).data = true ∨ isMDshort (pyStrip f).data = true := by
  by_cases h1 : isYMD (pyStrip f).data = true
  · exact Or.inl h1
  · by_cases h2 : isMDshort (pyStrip f).data = true
    · exact Or.inr h2
    · exfalso
      unfold parse_date at h
      rw [if_neg h1, if_neg h2] at h
      exact Option.noConfusion h

/-- A filter accepted by `_parse_date` is not one of the keyword filters of
`_filter_dates` (its stripped, lowered form is all digits with `-` or `.`
separators, which no keyword is). -/
theorem parse_keyword_free {year : Nat} {f d : String}
    (h : parse_date year f = some d) :
    pyLower (pyStrip f) ≠ "오늘" ∧ pyLower (pyStrip f) ≠ "today" ∧
    pyLower (pyStrip f) ≠ "이번주" ∧ pyLower (pyStrip f) ≠ "week" ∧
    pyLower (pyStrip f) ≠ "주간" := by
  rcases parse_shape h with h1 | h2
  · have hlen : (pyLower (pyStrip f)).data.length = 10 := by
      rw [pyLower_data, List.length_map]
      exact isYMD_length h1
    refine ⟨?_, ?_, ?_, ?_, ?_⟩ <;>
      (intro he; rw [he] at hlen; exact absurd hlen (by decide))
  · obtain ⟨hlen5, hdot⟩ := isMDshort_shape h2
    have hlen : (pyLower (pyStrip f)).data.length = 5 := by
      rw [pyLower_data, List.length_map]
      exact hlen5
    have hdot2 : ((pyLower (pyStrip f)).data)[2]? = some '.' := by
      rw [pyLower_data, List.getElem?_map, hdot]
      rfl
    refine ⟨?_, ?_, ?_, ?_, ?_⟩
    · intro he; rw [he] at hlen; exact absurd hlen (by decide)
    · intro he; rw [he] at hdot2; exact absurd hdot2 (by decide)
    · intro he; rw [he] at hlen; exact absurd hlen (by decide)
    · intro he; rw [he] at hlen; exact absurd hlen (by decide)
    · intro he; rw [he] at hlen; exact absurd hlen (by decide)

/-- A filter accepted by `_parse_date` is a truthy (nonempty) string. -/
theorem parse_truthy {year : Nat} {f d : String} (h : parse_date year f = some d) :
    pyTruthyOpt (some f) = true := by
  have hne : ¬ f.data.isEmpty = true := by
    rw [List.isEmpty_iff]
    intro hd
    rcases parse_shape h with h1 | h2
    · have := isYMD_length h1
      rw [pyStrip_nil hd] at this
      simp at this
    · have := (isMDshort_shape h2).1
      rw [pyStrip_nil hd] at this
      simp at this
  show (!f.data.isEmpty) = true
  simp only [Bool.not_eq_true']
  exact Bool.not_eq_true _ ▸ (by simpa using hne)

/-! ## Claims -/

/-- C3: with no filter given, the interactive formatter's selected date
columns are exactly the last 3 date columns in original order (a suffix of
the column list of length 3 when at least 3 exist), or all date columns when
fewer than 3 exist. -/
theorem C3_no_filter_last3 (cols : List String) :
    format_selectColumns cols none = cols.drop (cols.length - 3) ∧
    cols.take (cols.length - 3) ++ format_selectColumns cols none = cols ∧
    (3 ≤ cols.length → (format_selectColumns cols none).length = 3) ∧
    (cols.length < 3 → format_selectColumns cols none = cols) := by
  have hsel : format_selectColumns cols none
      = if cols.length > 3 then cols.drop (cols.length - 3) else cols := rfl
  by_cases h : cols.length > 3
  · rw [hsel, if_pos h]
    refine ⟨rfl, List.take_append_drop _ _, ?_, ?_⟩
    · intro _
      rw [List.length_drop]
      omega
    · intro h2
      omega
  · rw [hsel, if_neg h]
    have h0 : cols.length - 3 = 0 := by omega
    refine ⟨?_, ?_, ?_, fun _ => rfl⟩
    · rw [h0, List.drop_zero]
    · rw [h0, List.take_zero, List.nil_append]
    · intro h3
      omega

/-- C3 witness: a concrete 4-column table, instantiating the theorem. -/
theorem C3_no_filter_last3_witness :
    format_selectColumns ["09.21", "09.22", "09.23", "09.24"] none
      = ["09.22", "09.23", "09.24"] ∧
    (format_selectColumns ["09.21", "09.22", "09.23", "09.24"] none).length = 3 := by
  constructor
  · have h := (C3_no_filter_last3 ["09.21", "09.22", "09.23", "09.24"]).1
    rw [h]
    decide
  · exact (C3_no_filter_last3 ["09.21", "09.22", "09.23", "09.24"]).2.2.1 (by decide)

/-- C10: whenever the first line of the message plus its appended newline
already exceeds the limit, the chunker's first returned part is the empty
string — the empty accumulator is closed and emitted before the oversized
line starts a new part, so a part can contain no line at all. -/
theorem C10_first_part_empty (m : String) (L : Nat) (l : String)
    (rest : List String) (hsplit : pySplitLines m = l :: rest)
    (hl : L < l.length + 1) :
    ∃ ps, split_message m L = "" :: ps := by
  have hstep : chunkStep L ([], "") l = ([""], l ++ "\n") := by
    have hc : ("" : String).length + l.length + 1 > L := by
      have h0 : ("" : String).length = 0 := rfl
      omega
    simp only [chunkStep, hc, if_pos]
    rfl
  obtain ⟨extra, he⟩ := chunkFold_parts_mono L rest [""] (l ++ "\n")
  rw [split_message_eq, hsplit, List.foldl_cons, hstep]
  by_cases hz : (rest.foldl (chunkStep L) ([""], l ++ "\n")).2 = ""
  · rw [if_pos hz, he]
    exact ⟨extra, by simp⟩
  · rw [if_neg hz, he]
    exact ⟨extra ++ [(rest.foldl (chunkStep L) ([""], l ++ "\n")).2], by simp⟩

/-- C10 witness: `"abcd"` with limit 3 begins with an empty part. -/
theorem C10_first_part_empty_witness : ∃ ps, split_message "abcd" 3 = "" :: ps :=
  C10_first_part_empty "abcd" 3 "abcd" [] (by decide) (by decide)

/-- C4 counterexample: the message `"abc"` with limit 3 — no line exceeds the
limit (the single line has length exactly 3), yet the chunker returns the
part `"abc\n"` of length 4 > 3, because the appended newline is counted
against the limit but not accounted for by the claim's oversized-line
exception.  (The leading empty part also shows the split.) -/
theorem C4_counterexample :
    split_message "abc" 3 = ["", "abc\n"] ∧
    (∀ l ∈ pySplitLines "abc", l.length ≤ 3) ∧
    ¬(∀ p ∈ split_message "abc" 3, p.length ≤ 3) := by decide

/-- C4 (amended): the chunker splits only at line boundaries — the returned
parts are a partition of the message's lines into consecutive blocks (each
line in exactly one part, order preserved, nothing dropped or duplicated,
every line newline-terminated), so the parts joined in order equal the
original message plus a single trailing newline; and every part's length is
at most `L` except a part holding a **single line of the message** (one
member of `split('\n')`, itself newline-free) whose length plus its appended
newline exceeds `L` — that one line plus the newline is its own oversized
part. -/
theorem C4_chunker_amended (m : String) (L : Nat) :
    joinParts (split_message m L) = m ++ "\n" ∧
    (∃ groups : List (List String),
        groups.flatten = pySplitLines m ∧
        split_message m L = groups.map lineBlocks) ∧
    ∀ p ∈ split_message m L,
      p.length ≤ L ∨
        ∃ l : String, l ∈ pySplitLines m ∧ '\n' ∉ l.data ∧
          p = l ++ "\n" ∧ L < l.length + 1 := by
  refine ⟨split_message_join m L, split_message_partition m L, ?_⟩
  intro p hp
  rcases split_message_bound m L p hp with h | ⟨l, hl, he, hlen⟩
  · exact Or.inl h
  · exact Or.inr ⟨l, hl, pySplitLines_no_newline m l hl, he, hlen⟩

/-- C4 witness: a concrete two-line message within the limit. -/
theorem C4_chunker_amended_witness :
    joinParts (split_message "ab\ncd" 10) = "ab\ncd" ++ "\n" ∧
    ("ab\ncd\n".length ≤ 10 ∨
      ∃ l : String, l ∈ pySplitLines "ab\ncd" ∧ '\n' ∉ l.data ∧
        "ab\ncd\n" = l ++ "\n" ∧ 10 < l.length + 1) :=
  ⟨(C4_chunker_amended "ab\ncd" 10).1,
   (C4_chunker_amended "ab\ncd" 10).2.2 "ab\ncd\n" (by decide)⟩

/-- C5 counterexample: a missing (`NaN`) cell produces **no** hourly line at
all (`pd.notna` guards the whole emission), while a non-numeric cell's raw
text is passed through unannotated — so the claim's "missing cell yields no
marker **with the raw text passed through**" is false: nothing is passed
through for a missing cell. -/
theorem C5_counterexample :
    hourLine "1h" Cell.missing = none ∧
    hourLine "1h" (Cell.entry "95.5-" none)
      = some ("  " ++ rjust 3 "1h" ++ ": " ++ rjust 7 "95.5-" ++ " 원/kWh\n") :=
  ⟨rfl, rfl⟩

/-- C5 (amended): the severity annotation is a total pure function of the
numeric cell value — value > 120 maps to the high marker, 90 < value ≤ 120
to the medium marker, value ≤ 90 to the low marker; a non-numeric cell
(failed `float()` parse) yields no marker and its raw text is passed through
unannotated; a missing cell yields no marker **and no line at all**; and the
annotated hourly line is determined by the severity of the value.  (In this
total embedding no case raises.) -/
theorem C5_severity_amended (v : ℚ) (t slot : String) :
    (120 < v → severityOf v = Severity.high) ∧
    (90 < v → v ≤ 120 → severityOf v = Severity.medium) ∧
    (v ≤ 90 → severityOf v = Severity.low) ∧
    severityMarker (Cell.entry t none) = none ∧
    hourLine slot (Cell.entry t none)
      = some ("  " ++ rjust 3 slot ++ ": " ++ rjust 7 t ++ " 원/kWh\n") ∧
    severityMarker Cell.missing = none ∧
    hourLine slot Cell.missing = none ∧
    hourLine slot (Cell.entry t (some v))
      = some (sevEmoji (severityOf v) ++ " " ++ rjust 3 slot ++ ": "
          ++ rjust 7 t ++ " 원/kWh\n") := by
  refine ⟨?_, ?_, ?_, rfl, rfl, rfl, rfl, ?_⟩
  · intro h
    simp [severityOf, h]
  · intro h1 h2
    have hn : ¬v > 120 := by linarith
    simp [severityOf, hn, h1]
  · intro h
    have h1 : ¬v > 120 := by linarith
    have h2 : ¬v > 90 := by linarith
    simp [severityOf, h1, h2]
  · have hemoji : sevEmoji (severityOf v)
        = (if v > 120 then "🔴" else if v > 90 then "🟡" else "🟢") := by
      unfold severityOf
      split_ifs <;> rfl
    show some ((if v > 120 then "🔴" else if v > 90 then "🟡" else "🟢")
        ++ " " ++ rjust 3 slot ++ ": " ++ rjust 7 t ++ " 원/kWh\n") = _
    rw [hemoji]

/-- C5 witness: the three sample values of the spec and a missing cell. -/
theorem C5_severity_amended_witness :
    severityOf 150 = Severity.high ∧ severityOf 100 = Severity.medium ∧
    severityOf 50 = Severity.low ∧ hourLine "1h" Cell.missing = none :=
  ⟨(C5_severity_amended 150 "x" "1h").1 (by norm_num),
   (C5_severity_amended 100 "x" "1h").2.1 (by norm_num) (by norm_num),
   (C5_severity_amended 50 "x" "1h").2.2.1 (by norm_num),
   (C5_severity_amended 50 "x" "1h").2.2.2.2.2.2.1⟩

/-- C9 counterexample: the row labelled `"abh"` is classified as hourly by
the source's `h$` search although its label is not an integer followed by
`h` — the claim's "if and only if" fails. -/
theorem C9_counterexample :
    (hourlyRows tbl9).map Row.label = ["1h", "abh"] ∧ intThenH "abh" = false := by
  decide

/-- C9 (amended): a row is classified as hourly if and only if its label,
as a string, passes the `h$` regex search — i.e. ends in `h` (or in `h`
followed by a trailing newline); every `<integer>h` label passes, but so do
non-integer labels ending in `h`. -/
theorem C9_hourly_amended (t : Table) (r : Row) :
    (r ∈ hourlyRows t ↔ r ∈ t.rows ∧ matches_h_end r.label = true) ∧
    (∀ s : String, intThenH s = true → matches_h_end s = true) := by
  constructor
  · exact List.mem_filter
  · intro s h
    simp only [intThenH, Bool.and_eq_true] at h
    simp only [matches_h_end, Bool.or_eq_true]
    exact Or.inl h.1.1

/-- C9 witness: the hourly label `"12h"` passes the classification. -/
theorem C9_hourly_amended_witness : matches_h_end "12h" = true :=
  (C9_hourly_amended tbl9 rowAbh).2 "12h" (by decide)

/-- C6 counterexample: a final HTTP status of 304 is not a 2xx status, yet
`response.raise_for_status()` raises only for statuses 400-599, so fetch
proceeds to extraction and — when the page carries the marked table —
returns it instead of the absent-table result the claim requires for every
non-2xx status. -/
theorem C6_counterexample :
    ¬(200 ≤ 304 ∧ 304 < 300) ∧
    info_fetch (HttpResult.response 304 [conTbl]) = some demoTable ∧
    interactive_fetch (HttpResult.response 304 [conTbl]) = some demoTable := by
  decide

/-- C6 (amended): for every transport-level failure that `requests` raises
on — a timeout, a connection error, or an HTTP error status in 400-599 —
both crawlers' fetch returns the absent-table result `none`; the raising
paths are all caught inside `fetch_smp_data`, so no exception escapes the
call (the embedding maps every raising path to `none`). -/
theorem C6_fetch_amended (r : HttpResult)
    (h : r = HttpResult.timeout ∨ r = HttpResult.connError ∨
      ∃ (s : Nat) (tabs : List HtmlTable),
        r = HttpResult.response s tabs ∧ 400 ≤ s ∧ s < 600) :
    info_fetch r = none ∧ interactive_fetch r = none := by
  rcases h with h | h | ⟨s, tabs, h, h4, h6⟩
  · subst h
    exact ⟨rfl, rfl⟩
  · subst h
    exact ⟨rfl, rfl⟩
  · subst h
    constructor
    · show (if 400 ≤ s ∧ s < 600 then none else _) = none
      rw [if_pos ⟨h4, h6⟩]
    · show (if 400 ≤ s ∧ s < 600 then none else _) = none
      rw [if_pos ⟨h4, h6⟩]

/-- C6 witness: an HTTP 500 response yields `none` from both fetchers. -/
theorem C6_fetch_amended_witness :
    info_fetch (HttpResult.response 500 []) = none ∧
    interactive_fetch (HttpResult.response 500 []) = none :=
  C6_fetch_amended (HttpResult.response 500 [])
    (Or.inr (Or.inr ⟨500, [], rfl, by decide, by decide⟩))

/-- C7 counterexample: a document whose only table lacks the `conTable`
class marker — the interactive crawler's extraction returns `none` although
a table element exists, contradicting the claim that `None` arises only when
no table element exists at all (the interactive file has no fallback). -/
theorem C7_counterexample :
    interactive_extract [plainTbl] = none ∧ [plainTbl] ≠ ([] : List HtmlTable) := by
  decide

/-- C7 (amended): the scheduled crawler behaves as the claim states —
extraction takes the first class-marked table, falls back to the first table
anywhere in the document, and yields `none` exactly when no table element
exists; the interactive crawler however has no fallback: its extraction
yields `none` exactly when no class-marked table exists, even if other
tables are present. -/
theorem C7_extract_amended (tables : List HtmlTable) :
    (info_extract tables = none ↔ tables = []) ∧
    (tables.find? hasConTableClass = none → info_extract tables = tables.head?) ∧
    (∀ ht, tables.find? hasConTableClass = some ht → info_extract tables = some ht) ∧
    (interactive_extract tables = none ↔ tables.find? hasConTableClass = none) := by
  refine ⟨?_, ?_, ?_, Iff.rfl⟩
  · cases hf : tables.find? hasConTableClass with
    | none =>
      simp only [info_extract, hf]
      exact List.head?_eq_none_iff
    | some t =>
      simp only [info_extract, hf]
      have hmem := List.mem_of_find?_eq_some hf
      exact iff_of_false (by simp) (List.ne_nil_of_mem hmem)
  · intro hf
    simp only [info_extract, hf]
  · intro ht hf
    simp only [info_extract, hf]

/-- C7 witness: with no class-marked table the scheduled extraction falls
back to the first table of the document. -/
theorem C7_extract_amended_witness : info_extract [plainTbl] = some plainTbl := by
  have h := (C7_extract_amended [plainTbl]).2.1 (by decide)
  rw [h]
  rfl

/-- C8 counterexample: the scheduled formatter's no-data report is not a
single line — it consists of the report header block followed by the warning
line, 5 lines in total. -/
theorem C8_counterexample :
    numLines (info_format "d" "t" none) = 5 ∧ (5 : Nat) ≠ 1 := by decide

/-- C8 (amended): on a missing (`None`) or empty table the interactive
formatter returns exactly the single-line no-data report, while the
scheduled formatter returns its header block (title line, date line, rule
line, blank line) followed by the same no-data line — 5 lines in total when
the date string contains no newline.  Neither raises (the embedding is
total and these are the early-return branches). -/
theorem C8_nodata_amended (today nowT : String) (jeju : Bool)
    (date_filter : Option String) (df : Option Table)
    (h : df = none ∨ ∃ t, df = some t ∧ t.rows = []) :
    interactive_format today nowT jeju df date_filter
      = "⚠️ 데이터를 가져올 수 없습니다." ∧
    numLines (interactive_format today nowT jeju df date_filter) = 1 ∧
    info_format today nowT df
      = "📊 <b>KPX 시간대별 SMP 데이터</b>\n" ++ "🗓 " ++ today ++ "\n"
        ++ repChar '=' 50 ++ "\n\n" ++ "⚠️ 데이터를 가져올 수 없습니다." ∧
    ('\n' ∉ today.data → numLines (info_format today nowT df) = 5) := by
  have hint : interactive_format today nowT jeju df date_filter
      = "⚠️ 데이터를 가져올 수 없습니다." := by
    rcases h with h | ⟨t, h, ht⟩ <;> subst h
    · rfl
    · simp [interactive_format, Table.isEmptyTable, ht]
  have hinfo : info_format today nowT df
      = "📊 <b>KPX 시간대별 SMP 데이터</b>\n" ++ "🗓 " ++ today ++ "\n"
        ++ repChar '=' 50 ++ "\n\n" ++ "⚠️ 데이터를 가져올 수 없습니다." := by
    rcases h with h | ⟨t, h, ht⟩ <;> subst h
    · rfl
    · simp [info_format, Table.isEmptyTable, ht]
  refine ⟨hint, ?_, hinfo, ?_⟩
  · rw [hint]
    decide
  · intro hnl
    rw [hinfo, numLines_eq_count]
    simp only [sdata_append, List.count_append]
    rw [List.count_eq_zero.mpr hnl]
    decide

/-- C8 witness: a concrete date string. -/
theorem C8_nodata_amended_witness :
    interactive_format "2025년 10월 12일" "09:00:00" false none none
      = "⚠️ 데이터를 가져올 수 없습니다." ∧
    numLines (info_format "2025년 10월 12일" "09:00:00" none) = 5 := by
  have h := C8_nodata_amended "2025년 10월 12일" "09:00:00" false none none (Or.inl rfl)
  exact ⟨h.1, h.2.2.2 (by decide)⟩

/-- C1 counterexample: a 5-column table and the parseable filter
`"2025-09-24"`, whose `month.day` substring `"09.24"` matches exactly one
column.  The claim predicts the selection `["09.24"]`; the formatter instead
selects **all** columns (any truthy filter shows the whole fetched window),
and the never-invoked `_filter_dates` helper returns the last 3 columns
(its date branch aborts with `AttributeError`, caught by its handler).
Neither equals the matching subsequence. -/
theorem C1_counterexample :
    parse_date 2025 "2025-09-24" = some "2025-09-24" ∧
    (["09.20", "09.21", "09.22", "09.23", "09.24"].filter
        (fun c => pyIn "09.24" c)) = ["09.24"] ∧
    format_selectColumns ["09.20", "09.21", "09.22", "09.23", "09.24"]
        (some "2025-09-24")
      = ["09.20", "09.21", "09.22", "09.23", "09.24"] ∧
    filter_dates ["09.20", "09.21", "09.22", "09.23", "09.24"] "2025-09-24" "09.21"
      = ["09.22", "09.23", "09.24"] := by
  decide

/-- C1 (amended): for every filter string that parses as a calendar date
(full `YYYY-MM-DD`, or `MM.DD` expanded to the current year), the
formatter's selected date columns are **all** date columns (the filter is
truthy and `format_smp_data` shows the whole fetched window; it never calls
`_filter_dates`); and the `_filter_dates` helper itself returns the last 3
columns for every such filter, because its date branch calls the missing
attribute `self._parse_date` and the resulting `AttributeError` is caught by
the handler returning `date_columns[-3:]`. -/
theorem C1_date_filter_amended (cols : List String) (f : String) (year : Nat)
    (todayMD : String) (d : String) (h : parse_date year f = some d) :
    format_selectColumns cols (some f) = cols ∧
    filter_dates cols f todayMD = lastN 3 cols := by
  constructor
  · have htruthy := parse_truthy h
    simp only [format_selectColumns, htruthy, if_true]
  · obtain ⟨k1, k2, k3, k4, k5⟩ := parse_keyword_free h
    have b1 : (pyLower (pyStrip f) == "오늘") = false := beq_eq_false_iff_ne.mpr k1
    have b2 : (pyLower (pyStrip f) == "today") = false := beq_eq_false_iff_ne.mpr k2
    have b3 : (pyLower (pyStrip f) == "이번주") = false := beq_eq_false_iff_ne.mpr k3
    have b4 : (pyLower (pyStrip f) == "week") = false := beq_eq_false_iff_ne.mpr k4
    have b5 : (pyLower (pyStrip f) == "주간") = false := beq_eq_false_iff_ne.mpr k5
    simp only [filter_dates, b1, b2, b3, b4, b5, Bool.or_self, Bool.or_false,
      Bool.false_or]
    simp

/-- C1 witness: the concrete filter `"2025-09-24"` on a 4-column table. -/
theorem C1_date_filter_amended_witness :
    format_selectColumns ["a", "b", "c", "d"] (some "2025-09-24")
      = ["a", "b", "c", "d"] ∧
    filter_dates ["a", "b", "c", "d"] "2025-09-24" "09.21"
      = lastN 3 ["a", "b", "c", "d"] :=
  C1_date_filter_amended ["a", "b", "c", "d"] "2025-09-24" 2025 "09.21"
    "2025-09-24" (by decide)

/-- C2 counterexample: columns `["09.20", "09.21"]` with today's `month.day`
equal to `"09.21"` and the filter `"today"`.  The claim predicts the
selection `["09.21"]` (the matching columns); the formatter — which never
calls `_filter_dates` — treats the truthy filter like any other and selects
both columns.  (Today's `%m.%d` string is 5 characters, so it can match at
most one of these 5-character column labels, whatever the date.) -/
theorem C2_counterexample :
    format_selectColumns ["09.20", "09.21"] (some "today") = ["09.20", "09.21"] ∧
    (["09.20", "09.21"].filter (fun col => pyIn "09.21" col)) = ["09.21"] ∧
    format_selectColumns ["09.20", "09.21"] (some "today") ≠ ["09.21"] := by
  decide

/-- C2 (amended): on the keyword filter "today" (`"오늘"`/`"today"` after
strip/lower), the never-invoked helper `_filter_dates` selects exactly the
date columns whose display string contains today's `month.day` substring,
falling back to the single most recent (last) column when none match; the
formatter itself, however, selects all date columns for this (truthy)
filter. -/
theorem C2_today_filter_amended (cols : List String) (f todayMD : String)
    (h : pyLower (pyStrip f) = "오늘" ∨ pyLower (pyStrip f) = "today") :
    filter_dates cols f todayMD
      = (if (cols.filter (fun col => pyIn todayMD col)).isEmpty
         then lastN 1 cols
         else cols.filter (fun col => pyIn todayMD col)) ∧
    format_selectColumns cols (some f) = cols := by
  have hcond : (pyLower (pyStrip f) == "오늘" || pyLower (pyStrip f) == "today")
      = true := by
    rcases h with h | h <;> simp [h]
  constructor
  · simp only [filter_dates, hcond, if_true]
  · have hne : ¬f.data.isEmpty = true := by
      rw [List.isEmpty_iff]
      intro hd
      have h0 : (pyLower (pyStrip f)).data = [] := by
        rw [pyLower_data, pyStrip_nil hd]
        rfl
      rcases h with h | h <;> (rw [h] at h0; exact absurd h0 (by decide))
    have htruthy : pyTruthyOpt (some f) = true := by
      show (!f.data.isEmpty) = true
      simp only [Bool.not_eq_true']
      exact Bool.not_eq_true _ ▸ (by simpa using hne)
    simp only [format_selectColumns, htruthy, if_true]

/-- C2 witness: the filter `"today"` with today's substring matching the
second of two columns. -/
theorem C2_today_filter_amended_witness :
    filter_dates ["09.20", "09.21"] "today" "09.21"
      = (if ((["09.20", "09.21"].filter (fun col => pyIn "09.21" col))).isEmpty
         then lastN 1 ["09.20", "09.21"]
         else ["09.20", "09.21"].filter (fun col => pyIn "09.21" col)) ∧
    format_selectColumns ["09.20", "09.21"] (some "today") = ["09.20", "09.21"] :=
  C2_today_filter_amended ["09.20", "09.21"] "today" "09.21"
    (Or.inr (by decide))
